import Mathlib

/-!
Shallow embedding of `src/property_scraper.py` (Airbnb listing scraper).

The embedding models:
- the worker pool (`DownloadManager.run` / `DownloadManager.Worker.run`)
  as a small-step transition system over a pool state holding the shared
  FIFO queue, one status per worker thread, the trace of dequeued URLs,
  the rows written to the store, and whether the throttling message was
  emitted;
- per-URL processing outcomes abstractly (`Outcome`): success,
  a per-URL content error (undecodable payload / missing field, which
  in the source is an uncaught ValueError or AttributeError killing the
  worker thread), or the throttled path (`sys.exit()` in the worker,
  which raises SystemExit and terminates only that thread);
- `DownloadManager.run` startup validation (`dmRun`): the empty-queue
  assert (stderr + `sys.exit()`, whose default exit status is 0), the
  clamping `n_conn = min(conn, len(queue))`, the invalid-concurrency
  assert whose AssertionError is caught and only writes to stderr, and
  `range(n_conn)` spawning `max(0, n_conn)` workers;
- `PropertyScraper.__get_full_site_json` (`getFullSiteJson`): pick the
  third `<script type="application/json">` element, strip the Python
  slice `[4:-3]`, JSON-decode (the decoder is a parameter since
  `json.loads` is an external library);
- `DownloadManager.Worker.__store_db` (`storeDb`): the 13-column row,
  the amenity loop, `str(...)` formatting, `photos[0]` indexing and
  `large_cover.split('?')[0]`;
- `DownloadManager.__process_input` (`processInput`): file lines or a
  single validated URL, stripping, skipping blank and `#` lines.
-/

/-- Status of one worker thread: still looping, exited after seeing
`Queue.Empty` (the `break`), or terminated by an uncaught exception
(SystemExit from the throttled path, or a content error). -/
inductive WStatus
  | running
  | finished
  | dead
deriving DecidableEq

/-- Abstract per-URL processing outcome of one loop iteration of
`Worker.run` after the dequeue: `ok` (listing fetched, decoded and the
row inserted), `contentError` (uncaught ValueError/AttributeError:
undecodable payload or missing field), `throttled` (fewer than three
JSON script elements: stderr message then `sys.exit()` in the thread). -/
inductive Outcome
  | ok
  | contentError
  | throttled
deriving DecidableEq

/-- State of the pool: the shared queue (FIFO of pending URLs), the
status of each spawned worker, the URLs dequeued so far (in dequeue
order), the URLs whose row was inserted, and whether the throttling
stderr message has been emitted. -/
structure PoolState where
  queue : List String
  workers : List WStatus
  processed : List String
  rows : List String
  throttledFlag : Bool
deriving DecidableEq

/-- One loop iteration of `Worker.run` by worker `i` (the atomic
`queue.get_nowait()` is the linearization point): a running worker with
an empty queue breaks (`Queue.Empty`); otherwise it dequeues the head
and processes it, dying on a content error or on the throttled path
(which also emits the stderr message). A non-running worker does
nothing. -/
def step (result : String → Outcome) (s : PoolState) (i : Nat) : PoolState :=
  match s.workers[i]? with
  | some WStatus.running =>
    match s.queue with
    | [] => { s with workers := s.workers.set i WStatus.finished }
    | u :: rest =>
      match result u with
      | Outcome.ok =>
          { s with queue := rest, processed := s.processed ++ [u],
                   rows := s.rows ++ [u] }
      | Outcome.contentError =>
          { s with queue := rest, processed := s.processed ++ [u],
                   workers := s.workers.set i WStatus.dead }
      | Outcome.throttled =>
          { s with queue := rest, processed := s.processed ++ [u],
                   workers := s.workers.set i WStatus.dead,
                   throttledFlag := true }
  | _ => s

/-- Run the pool under an interleaving given by a schedule (the list of
worker indices chosen by the OS scheduler, one per loop iteration). -/
def exec (result : String → Outcome) (s : PoolState) (sched : List Nat) : PoolState :=
  sched.foldl (step result) s

/-- Initial pool state: the processed queue of URLs and `k` freshly
spawned workers against it. -/
def initPool (urls : List String) (k : Nat) : PoolState :=
  ⟨urls, List.replicate k WStatus.running, [], [], false⟩

/-- The pool's `run` has returned: every worker thread has exited, so
`thread.join()` has returned for all of them. -/
def Returned (s : PoolState) : Prop :=
  ∀ st ∈ s.workers, st ≠ WStatus.running

instance (s : PoolState) : Decidable (Returned s) :=
  List.decidableBAll _ s.workers

/-- A canonical fair schedule: give each of the `k` workers `n + 1`
consecutive turns, where `n` bounds the queue length. -/
def drainSched (k n : Nat) : List Nat :=
  (List.range k).flatMap (fun i => List.replicate (n + 1) i)

/-- Result of `DownloadManager.run`: either the process exited during
startup validation (`sys.exit()` on the empty-queue assert, exit status
0 since `sys.exit` is called with no argument), or the run proceeded:
whether the invalid-concurrency message was written to stderr (the
AssertionError is caught and the run continues), how many workers
`range(n_conn)` spawned, and the final pool state after the join. -/
inductive RunResult
  | startupExit (code : Int)
  | ran (invalidMsg : Bool) (spawned : Nat) (final : PoolState)
deriving DecidableEq

/-- `DownloadManager.run`: the empty-queue assert exits the process
(status 0); otherwise `n_conn = min(conn, len(queue))` (an `int`, so
possibly non-positive), the bounds check `1 <= n_conn <= 10000` only
writes to stderr on failure, and `range(n_conn)` spawns
`Int.toNat n_conn` workers that drain the shared queue; the main
thread joins them all and the process then exits normally. -/
def dmRun (conn : Int) (urls : List String) (result : String → Outcome)
    (sched : List Nat) : RunResult :=
  if urls.isEmpty then RunResult.startupExit 0
  else
    let nConn : Int := min conn (urls.length : Int)
    let invalid : Bool := decide (¬ (1 ≤ nConn ∧ nConn ≤ 10000))
    RunResult.ran invalid nConn.toNat
      (exec result (initPool urls nConn.toNat) sched)

/-- Exit status of the whole process: the startup `sys.exit()` status,
or 0 when `run` returns normally (the `click` command then returns and
the interpreter exits 0; a SystemExit raised inside a worker thread
never reaches the interpreter's exit status). -/
def exitCode : RunResult → Int
  | RunResult.startupExit c => c
  | RunResult.ran _ _ _ => 0

/-- Rows present in the store at process exit. -/
def rowsOf : RunResult → List String
  | RunResult.startupExit _ => []
  | RunResult.ran _ _ f => f.rows

/-- Number of worker threads spawned. -/
def spawnedOf : RunResult → Nat
  | RunResult.startupExit _ => 0
  | RunResult.ran _ k _ => k

/-- Whether the invalid-concurrency message was written to stderr. -/
def invalidOf : RunResult → Bool
  | RunResult.startupExit _ => false
  | RunResult.ran b _ _ => b

/-- Whether the throttling message was emitted during the run. -/
def flagOf : RunResult → Bool
  | RunResult.startupExit _ => false
  | RunResult.ran _ _ f => f.throttledFlag

/-- Python string slice `s[4:-3]` on a `str` (character indices): start
at index 4, stop at `len(s) - 3`, empty when the range is empty. -/
def pySlice4m3 (s : String) : String :=
  String.mk ((s.toList.drop 4).take (s.toList.length - 7))

/-- Result of `PropertyScraper.__get_full_site_json`: the decoded
payload, the throttled path (fewer than three JSON script elements:
`react_items[2]` raises IndexError, caught, stderr message, thread
`sys.exit()`), or a decode failure (`json.loads` raises ValueError,
which is not caught). -/
inductive ExtractResult (J : Type)
  | ok (j : J)
  | throttled
  | decodeError
deriving DecidableEq

/-- `PropertyScraper.__get_full_site_json`: `react_items` is the list
of texts of the `<script type="application/json">` elements in document
order; the code takes `react_items[2]`, slices `[4:-3]` and decodes.
`decode` stands for the external `json.loads`. -/
def getFullSiteJson {J : Type} (decode : String → Option J)
    (scripts : List String) : ExtractResult J :=
  match scripts[2]? with
  | none => ExtractResult.throttled
  | some t =>
    match decode (pySlice4m3 t) with
    | some j => ExtractResult.ok j
    | none => ExtractResult.decodeError

/-- One entry of `listing.listing_amenities`. -/
structure Amenity where
  name : String
  is_present : Bool
deriving DecidableEq

/-- One entry of `listing.photos`. -/
structure Photo where
  large_cover : String
deriving DecidableEq

/-- The decoded listing payload, with exactly the fields
`Worker.__store_db` reads. -/
structure Listing where
  name : String
  market : String
  review_score : Int
  review_count : Int
  room_and_property_type : String
  bed_label : String
  bathroom_label : String
  guest_label : String
  price_formatted_for_embed : String
  photos : List Photo
  description : String
  listing_amenities : List Amenity
deriving DecidableEq

/-- The 13-column `listings` row inserted by `Worker.__store_db`. -/
structure Row where
  url : String
  name : String
  market : String
  rating : String
  review_count : String
  type : String
  bed : String
  bath : String
  guest : String
  price : String
  photo_url : String
  description : String
  amenities : String
deriving DecidableEq

/-- The amenity loop in `Worker.__store_db`: start from `[]` and append
`amenity.name` for each amenity with `amenity.is_present` true, in
iteration order. -/
def deriveAmenities (amenityList : List Amenity) : List String :=
  amenityList.foldl (fun acc a => if a.is_present then acc ++ [a.name] else acc) []

/-- Python `s.split('?')[0]`: the prefix of `s` before the first `'?'`
(all of `s` when there is none). -/
def pySplitHead (s : String) : String :=
  String.mk (s.toList.takeWhile (fun c => c != '?'))

/-- Failure of `Worker.__store_db`'s row construction. -/
inductive StoreErr
  | indexError
deriving DecidableEq

/-- `Worker.__store_db`: builds the 13-value tuple and inserts it.
`listing.photos[0]` raises IndexError when `photos` is empty; numeric
review fields go through `str(...)`; the amenity list is joined with
commas. -/
def storeDb (url : String) (l : Listing) : Except StoreErr Row :=
  match l.photos with
  | [] => Except.error StoreErr.indexError
  | p :: _ =>
    Except.ok
      { url := url
        name := l.name
        market := l.market
        rating := toString l.review_score
        review_count := toString l.review_count
        type := l.room_and_property_type
        bed := l.bed_label
        bath := l.bathroom_label
        guest := l.guest_label
        price := l.price_formatted_for_embed
        photo_url := pySplitHead p.large_cover
        description := l.description
        amenities := String.intercalate "," (deriveAmenities l.listing_amenities) }

/-- Python `str.strip()` (whitespace at both ends). -/
def pyStrip (s : String) : String := s.trim

/-- `DownloadManager.__process_input`: `input` is the file's lines when
`click.open_file` succeeds (`fileLines = some lines`); on
FileNotFoundError (`fileLines = none`) it is the single stripped URL
argument when `validators.url` accepts it, else the empty list. Each
entry is stripped; blank lines and lines starting with `#` are skipped;
the rest are enqueued in order. -/
def processInput (fileLines : Option (List String)) (urls : String)
    (validUrl : String → Bool) : List String :=
  let input : List String :=
    match fileLines with
    | some lines => lines
    | none => if validUrl urls then [pyStrip urls] else []
  input.foldl
    (fun q line =>
      let u := pyStrip line
      if u = "" then q
      else if u.front = '#' then q
      else q ++ [u]) []

/-! ## Pool-model helper lemmas -/

/-- One step preserves the multiset of URLs split between the trace of
dequeued URLs and the queue. -/
theorem step_count (result : String → Outcome) (s : PoolState) (i : Nat) (u : String) :
    (step result s i).processed.count u + (step result s i).queue.count u
      = s.processed.count u + s.queue.count u := by
  unfold step
  split
  · split
    · rename_i hq
      simp [hq]
    · rename_i u' rest hq
      split <;> simp [hq, List.count_append, List.count_cons] <;> omega
  · rfl

/-- One step never grows the queue. -/
theorem step_queue_len (result : String → Outcome) (s : PoolState) (i : Nat) :
    (step result s i).queue.length ≤ s.queue.length := by
  unfold step
  split
  · split
    · simp
    · rename_i u' rest hq
      split <;> simp [hq]
  · exact le_refl _

/-- One step keeps the number of workers. -/
theorem step_workers_len (result : String → Outcome) (s : PoolState) (i : Nat) :
    (step result s i).workers.length = s.workers.length := by
  unfold step
  split
  · split
    · simp
    · split <;> simp
  · rfl

/-- A step by worker `i` leaves every other worker's status unchanged. -/
theorem step_other_worker (result : String → Outcome) (s : PoolState) (i j : Nat)
    (hne : j ≠ i) :
    (step result s i).workers[j]? = s.workers[j]? := by
  unfold step
  split
  · split
    · simp [List.getElem?_set_ne (fun h => hne h.symm)]
    · split <;> simp [List.getElem?_set_ne (fun h => hne h.symm)]
  · rfl

/-- A step never revives a worker: a non-running worker stays
non-running. -/
theorem step_nonrunning_stays (result : String → Outcome) (s : PoolState) (i j : Nat)
    (h : s.workers[j]? ≠ some WStatus.running) :
    (step result s i).workers[j]? ≠ some WStatus.running := by
  by_cases hji : j = i
  · subst hji
    unfold step
    split
    · rename_i hw
      exact absurd hw h
    · exact h
  · rw [step_other_worker result s i j hji]
    exact h

/-- The dequeue-trace/queue count invariant, lifted to whole runs. -/
theorem exec_count (result : String → Outcome) (sched : List Nat) :
    ∀ (s : PoolState) (u : String),
      (exec result s sched).processed.count u + (exec result s sched).queue.count u
        = s.processed.count u + s.queue.count u := by
  induction sched with
  | nil => intro s u; rfl
  | cons i is ih =>
    intro s u
    have h1 : exec result s (i :: is) = exec result (step result s i) is := rfl
    rw [h1, ih (step result s i) u, step_count]

/-- The queue never grows along a run. -/
theorem exec_queue_len (result : String → Outcome) (sched : List Nat) :
    ∀ s : PoolState, (exec result s sched).queue.length ≤ s.queue.length := by
  induction sched with
  | nil => intro s; exact le_refl _
  | cons i is ih =>
    intro s
    exact le_trans (ih (step result s i)) (step_queue_len result s i)

/-- The number of workers is constant along a run. -/
theorem exec_workers_len (result : String → Outcome) (sched : List Nat) :
    ∀ s : PoolState, (exec result s sched).workers.length = s.workers.length := by
  induction sched with
  | nil => intro s; rfl
  | cons i is ih =>
    intro s
    rw [show exec result s (i :: is) = exec result (step result s i) is from rfl,
      ih (step result s i), step_workers_len]

/-- A worker that has exited never runs again, along any schedule. -/
theorem exec_nonrunning_stays (result : String → Outcome) (sched : List Nat) :
    ∀ (s : PoolState) (j : Nat), s.workers[j]? ≠ some WStatus.running →
      (exec result s sched).workers[j]? ≠ some WStatus.running := by
  induction sched with
  | nil => intro s j h; exact h
  | cons i is ih =>
    intro s j h
    exact ih (step result s i) j (step_nonrunning_stays result s i j h)

/-- A block of steps all by worker `i` leaves every other worker's
status unchanged. -/
theorem exec_replicate_other (result : String → Outcome) (i j : Nat) (hne : j ≠ i) :
    ∀ (n : Nat) (s : PoolState),
      (exec result s (List.replicate n i)).workers[j]? = s.workers[j]? := by
  intro n
  induction n with
  | zero => intro s; rfl
  | succ m ih =>
    intro s
    rw [List.replicate_succ,
      show exec result s (i :: List.replicate m i)
          = exec result (step result s i) (List.replicate m i) from rfl,
      ih (step result s i), step_other_worker result s i j hne]

/-- After `m + 1` consecutive turns of worker `i`, where `m` bounds the
queue length, worker `i` has exited (it either drained the queue and
broke on `Queue.Empty`, or died on an error). -/
theorem exec_block_stops (result : String → Outcome) (i : Nat) :
    ∀ (m : Nat) (s : PoolState), s.queue.length ≤ m →
      (exec result s (List.replicate (m + 1) i)).workers[i]? ≠ some WStatus.running := by
  intro m
  induction m with
  | zero =>
    intro s hq
    by_cases hw : s.workers[i]? = some WStatus.running
    · have hqe : s.queue = [] := List.eq_nil_of_length_eq_zero (Nat.le_zero.mp hq)
      have hlt : i < s.workers.length := by
        rcases List.getElem?_eq_some.mp hw with ⟨h, _⟩
        exact h
      have hstep : step result s i = { s with workers := s.workers.set i WStatus.finished } := by
        unfold step
        rw [hw, hqe]
      show (exec result (step result s i) (List.replicate 0 i)).workers[i]? ≠ some WStatus.running
      rw [show List.replicate 0 i = ([] : List Nat) from rfl]
      rw [hstep]
      show (s.workers.set i WStatus.finished)[i]? ≠ some WStatus.running
      rw [List.getElem?_set_eq_of_lt _ hlt]
      simp
    · exact exec_nonrunning_stays result _ s i hw
  | succ m ih =>
    intro s hq
    by_cases hw : s.workers[i]? = some WStatus.running
    · rw [List.replicate_succ,
        show exec result s (i :: List.replicate (m + 1) i)
            = exec result (step result s i) (List.replicate (m + 1) i) from rfl]
      cases hq2 : s.queue with
      | nil =>
        have hstep : (step result s i).workers[i]? ≠ some WStatus.running := by
          have hlt : i < s.workers.length := by
            rcases List.getElem?_eq_some.mp hw with ⟨h, _⟩
            exact h
          unfold step
          rw [hw, hq2]
          show (s.workers.set i WStatus.finished)[i]? ≠ some WStatus.running
          rw [List.getElem?_set_eq_of_lt _ hlt]
          simp
        exact exec_nonrunning_stays result _ _ i hstep
      | cons u rest =>
        have hlen : (step result s i).queue.length ≤ m := by
          have : (step result s i).queue = rest := by
            cases hr : result u <;> simp [step, hw, hq2, hr]
          rw [this]
          have : rest.length + 1 ≤ m + 1 := by
            rw [← List.length_cons u rest, ← hq2]
            exact hq
          omega
        exact ih (step result s i) hlen
    · exact exec_nonrunning_stays result _ s i hw

/-- Invariant: once any worker has broken on `Queue.Empty`, the queue
is empty (and stays so, since it is never refilled). -/
def FinInv (s : PoolState) : Prop :=
  WStatus.finished ∈ s.workers → s.queue = []

/-- One step preserves `FinInv`. -/
theorem step_fininv (result : String → Outcome) (s : PoolState) (i : Nat)
    (h : FinInv s) : FinInv (step result s i) := by
  unfold step
  split
  · split
    · rename_i hq
      intro _
      simpa using hq
    · rename_i u rest hq
      have hmem : WStatus.finished ∉ s.workers := by
        intro hf
        rw [h hf] at hq
        cases hq
      split <;> rename_i hr <;> intro hf
      · exact absurd (by simpa using hf) hmem
      · rcases List.mem_or_eq_of_mem_set (by simpa using hf) with h2 | h2
        · exact absurd h2 hmem
        · cases h2
      · rcases List.mem_or_eq_of_mem_set (by simpa using hf) with h2 | h2
        · exact absurd h2 hmem
        · cases h2
  · exact h

/-- `FinInv` holds along whole runs. -/
theorem exec_fininv (result : String → Outcome) (sched : List Nat) :
    ∀ s : PoolState, FinInv s → FinInv (exec result s sched) := by
  induction sched with
  | nil => intro s h; exact h
  | cons i is ih =>
    intro s h
    exact ih (step result s i) (step_fininv result s i h)

/-- When every URL processes successfully no worker ever dies: one-step
version. -/
theorem step_nodead (result : String → Outcome) (s : PoolState) (i : Nat)
    (hok : ∀ u, result u = Outcome.ok) (h : WStatus.dead ∉ s.workers) :
    WStatus.dead ∉ (step result s i).workers := by
  unfold step
  split
  · split
    · intro hf
      rcases List.mem_or_eq_of_mem_set (by simpa using hf) with h2 | h2
      · exact absurd h2 h
      · cases h2
    · rename_i u rest hq
      split <;> rename_i hr
      · simpa using h
      · rw [hok u] at hr
        cases hr
      · rw [hok u] at hr
        cases hr
  · exact h

/-- When every URL processes successfully no worker ever dies. -/
theorem exec_nodead (result : String → Outcome) (sched : List Nat)
    (hok : ∀ u, result u = Outcome.ok) :
    ∀ s : PoolState, WStatus.dead ∉ s.workers →
      WStatus.dead ∉ (exec result s sched).workers := by
  induction sched with
  | nil => intro s h; exact h
  | cons i is ih =>
    intro s h
    exact ih (step result s i) (step_nodead result s i hok h)

/-- Running each worker in turn for one more slot than the queue is
long stops every worker whose index is scheduled (and keeps stopped
workers stopped). -/
theorem blocks_stop (result : String → Outcome) (n : Nat) :
    ∀ (is : List Nat) (s : PoolState), s.queue.length ≤ n →
      ∀ j, (j ∈ is ∨ s.workers[j]? ≠ some WStatus.running) →
        (exec result s (is.flatMap (fun i => List.replicate (n + 1) i))).workers[j]?
          ≠ some WStatus.running := by
  intro is
  induction is with
  | nil =>
    intro s hq j hj
    rcases hj with hj | hj
    · cases hj
    · exact hj
  | cons i is ih =>
    intro s hq j hj
    have hsplit : (i :: is).flatMap (fun i => List.replicate (n + 1) i)
        = List.replicate (n + 1) i ++ is.flatMap (fun i => List.replicate (n + 1) i) := by
      simp [List.flatMap_cons]
    rw [hsplit]
    have happ : exec result s
          (List.replicate (n + 1) i ++ is.flatMap (fun i => List.replicate (n + 1) i))
        = exec result (exec result s (List.replicate (n + 1) i))
            (is.flatMap (fun i => List.replicate (n + 1) i)) := by
      simp [exec, List.foldl_append]
    rw [happ]
    have hq1 : (exec result s (List.replicate (n + 1) i)).queue.length ≤ n :=
      le_trans (exec_queue_len result _ s) hq
    rcases hj with hj | hj
    · rcases List.mem_cons.mp hj with hj | hj
      · subst hj
        exact ih _ hq1 j (Or.inr (exec_block_stops result j n s hq))
      · exact ih _ hq1 j (Or.inl hj)
    · exact ih _ hq1 j
        (Or.inr (exec_nonrunning_stays result (List.replicate (n + 1) i) s j hj))

/-- The canonical fair schedule terminates the pool: every worker has
exited afterwards, whatever the per-URL outcomes. -/
theorem drain_returns (result : String → Outcome) (urls : List String) (k : Nat) :
    Returned (exec result (initPool urls k) (drainSched k urls.length)) := by
  intro st hst
  intro hrun
  subst hrun
  rcases List.getElem_of_mem hst with ⟨j, hjlt, hjget⟩
  have hlen : (exec result (initPool urls k) (drainSched k urls.length)).workers.length
      = k := by
    rw [exec_workers_len]
    simp [initPool]
  have hget : (exec result (initPool urls k) (drainSched k urls.length)).workers[j]?
      = some WStatus.running := by
    rw [List.getElem?_eq_getElem hjlt, hjget]
  have hjk : j < k := by
    rw [← hlen]
    exact hjlt
  have := blocks_stop result urls.length (List.range k) (initPool urls k)
    (by simp [initPool]) j (Or.inl (List.mem_range.mpr hjk))
  rw [drainSched] at hget
  exact this hget

/-- If every URL processes successfully and the pool has returned
(with at least one worker), the queue was fully drained. -/
theorem returned_all_ok_drained (result : String → Outcome) (urls : List String)
    (k : Nat) (sched : List Nat) (hok : ∀ u, result u = Outcome.ok) (hk : 1 ≤ k)
    (hret : Returned (exec result (initPool urls k) sched)) :
    (exec result (initPool urls k) sched).queue = [] := by
  have hnodead : WStatus.dead ∉ (exec result (initPool urls k) sched).workers := by
    apply exec_nodead result sched hok
    intro hmem
    rcases List.eq_of_mem_replicate hmem with h
    cases h
  have hlen : 0 < (exec result (initPool urls k) sched).workers.length := by
    rw [exec_workers_len]
    simpa [initPool] using hk
  have hmem : (exec result (initPool urls k) sched).workers[0] ∈
      (exec result (initPool urls k) sched).workers := List.getElem_mem hlen
  have hfin : (exec result (initPool urls k) sched).workers[0] = WStatus.finished := by
    cases hcase : (exec result (initPool urls k) sched).workers[0] with
    | running => exact absurd hcase (fun h => hret _ hmem (by rw [hcase]) )
    | finished => rfl
    | dead =>
      rw [hcase] at hmem
      exact absurd hmem hnodead
  apply exec_fininv result sched (initPool urls k)
  · intro hf
    rcases List.eq_of_mem_replicate hf with h
    cases h
  · rw [← hfin]
    exact hmem

/-! ## Claim C1 -/

/-- Claim C1 (amended): over the shared queue, each enqueued URL is
dequeued at most once across all workers (no URL is processed twice or
re-queued); when every URL processes successfully and the pool has
returned, the queue is fully drained and each URL was dequeued exactly
once; and the pool does terminate (under the canonical fair schedule
every worker exits). The original biconditional "Run returns iff the
queue is fully drained or a Throttled error is raised" fails on the
code because a worker can also die on a per-URL content error, leaving
the queue undrained. -/
theorem c1_queue_drain_semantics (result : String → Outcome) (urls : List String)
    (k : Nat) (sched : List Nat) (hnd : urls.Nodup) (hk : 1 ≤ k) :
    (∀ u, (exec result (initPool urls k) sched).processed.count u ≤ 1)
    ∧ ((∀ u, result u = Outcome.ok) → Returned (exec result (initPool urls k) sched) →
        (exec result (initPool urls k) sched).queue = []
        ∧ ∀ u ∈ urls, (exec result (initPool urls k) sched).processed.count u = 1)
    ∧ Returned (exec result (initPool urls k) (drainSched k urls.length)) := by
  refine ⟨?_, ?_, drain_returns result urls k⟩
  · intro u
    have hinv := exec_count result sched (initPool urls k) u
    have hbound : urls.count u ≤ 1 := List.nodup_iff_count_le_one.mp hnd u
    have hinit : (initPool urls k).processed.count u + (initPool urls k).queue.count u
        = urls.count u := by
      simp [initPool]
    omega
  · intro hok hret
    have hq := returned_all_ok_drained result urls k sched hok hk hret
    refine ⟨hq, ?_⟩
    intro u hu
    have hinv := exec_count result sched (initPool urls k) u
    have hone : urls.count u = 1 := List.count_eq_one_of_mem hnd hu
    have hinit : (initPool urls k).processed.count u + (initPool urls k).queue.count u
        = urls.count u := by
      simp [initPool]
    rw [hq] at hinv
    simp at hinv
    omega

/-- Two demo URLs for concrete runs. -/
def demoUrls : List String := ["http://a", "http://b"]

/-- Every URL processes successfully. -/
def allOk : String → Outcome := fun _ => Outcome.ok

/-- Claim C1 witness: the amended statement at a concrete two-worker
run over two URLs. -/
theorem c1_queue_drain_semantics_witness :
    (∀ u, (exec allOk (initPool demoUrls 2) [0, 1, 0, 1]).processed.count u ≤ 1)
    ∧ ((∀ u, allOk u = Outcome.ok) → Returned (exec allOk (initPool demoUrls 2) [0, 1, 0, 1]) →
        (exec allOk (initPool demoUrls 2) [0, 1, 0, 1]).queue = []
        ∧ ∀ u ∈ demoUrls, (exec allOk (initPool demoUrls 2) [0, 1, 0, 1]).processed.count u = 1)
    ∧ Returned (exec allOk (initPool demoUrls 2) (drainSched 2 demoUrls.length)) :=
  c1_queue_drain_semantics allOk demoUrls 2 [0, 1, 0, 1] (by decide) (by decide)

/-- Outcomes for the C1 counterexample: the first URL hits a per-URL
content error (undecodable payload / missing field). -/
def c1Bad : String → Outcome :=
  fun u => if u = "http://a" then Outcome.contentError else Outcome.ok

/-- Claim C1 counterexample: with one worker and URLs a, b where a hits
a content error, after schedule [0] the pool has returned (its only
worker died, so `join` returns), yet the queue still holds b, no
Throttled was signalled, and b was dequeued zero times — refuting both
"each enqueued URL is dequeued exactly once" and "Run returns iff the
queue is fully drained or a Throttled error is raised". -/
theorem c1_counterexample :
    Returned (exec c1Bad (initPool ["http://a", "http://b"] 1) [0])
    ∧ (exec c1Bad (initPool ["http://a", "http://b"] 1) [0]).queue = ["http://b"]
    ∧ (exec c1Bad (initPool ["http://a", "http://b"] 1) [0]).throttledFlag = false
    ∧ (exec c1Bad (initPool ["http://a", "http://b"] 1) [0]).processed.count "http://b" = 0 := by
  decide

/-! ## Claim C2 -/

/-- Claim C2 (amended): a Throttled condition (fewer than three JSON
script elements) hit while worker `i` processes the head URL kills only
that worker thread — `sys.exit()` raises SystemExit inside the thread,
which the threading machinery swallows. Afterwards worker `i` is dead,
every other worker's status is unchanged (they keep accepting work),
already-written rows remain untouched, the throttling message was
emitted, the rest of the queue stays available — and the exit status of
the process is 0 for every run that gets past startup, never non-zero. -/
theorem c2_throttled_kills_only_worker (result : String → Outcome) (s : PoolState)
    (i : Nat) (u : String) (rest : List String)
    (hw : s.workers[i]? = some WStatus.running)
    (hq : s.queue = u :: rest)
    (hr : result u = Outcome.throttled) :
    (step result s i).workers[i]? = some WStatus.dead
    ∧ (∀ j, j ≠ i → (step result s i).workers[j]? = s.workers[j]?)
    ∧ (step result s i).rows = s.rows
    ∧ (step result s i).throttledFlag = true
    ∧ (step result s i).queue = rest
    ∧ (∀ conn urls res sched, exitCode (dmRun conn urls res sched) = 0) := by
  have hlt : i < s.workers.length := by
    rcases List.getElem?_eq_some.mp hw with ⟨h, _⟩
    exact h
  have hstep : step result s i =
      { s with queue := rest, processed := s.processed ++ [u],
               workers := s.workers.set i WStatus.dead, throttledFlag := true } := by
    simp [step, hw, hq, hr]
  refine ⟨?_, ?_, ?_, ?_, ?_, ?_⟩
  · rw [hstep]
    exact List.getElem?_set_eq_of_lt WStatus.dead hlt
  · intro j hj
    exact step_other_worker result s i j hj
  · rw [hstep]
  · rw [hstep]
  · rw [hstep]
  · intro conn urls res sched
    by_cases h : urls.isEmpty <;> simp [dmRun, h, exitCode]

/-- Outcomes where the first demo URL hits the throttled path. -/
def throtResult : String → Outcome :=
  fun u => if u = "http://t" then Outcome.throttled else Outcome.ok

/-- The concrete two-worker state for the C2 witness. -/
def c2State : PoolState :=
  ⟨["http://t", "http://g"], [WStatus.running, WStatus.running], [], [], false⟩

/-- Claim C2 witness: the amended statement at a concrete state where
worker 0 dequeues the throttling URL. -/
theorem c2_throttled_kills_only_worker_witness :
    (step throtResult c2State 0).workers[0]? = some WStatus.dead
    ∧ (∀ j, j ≠ 0 → (step throtResult c2State 0).workers[j]? = c2State.workers[j]?)
    ∧ (step throtResult c2State 0).rows = c2State.rows
    ∧ (step throtResult c2State 0).throttledFlag = true
    ∧ (step throtResult c2State 0).queue = ["http://g"]
    ∧ (∀ conn urls res sched, exitCode (dmRun conn urls res sched) = 0) :=
  c2_throttled_kills_only_worker throtResult c2State 0 "http://t" ["http://g"]
    (by decide) (by decide) (by decide)

/-- Claim C2 counterexample: URLs t, g with two workers, where t hits
the throttled path. Under schedule [0, 1, 1] the throttling message is
emitted first, yet worker 1 still dequeues and stores g afterwards (the
run keeps accepting new work) and the process exits with status 0 — and
g's row remains in the store. This refutes "the process stops accepting
new work and terminates with a non-zero exit status". -/
theorem c2_counterexample :
    flagOf (dmRun 2 ["http://t", "http://g"] throtResult [0, 1, 1]) = true
    ∧ rowsOf (dmRun 2 ["http://t", "http://g"] throtResult [0, 1, 1]) = ["http://g"]
    ∧ ¬ exitCode (dmRun 2 ["http://t", "http://g"] throtResult [0, 1, 1]) ≠ 0 := by
  decide

/-! ## Claim C3 -/

/-- Claim C3 (amended): for a non-empty URL list, Run computes the
effective concurrency `n_conn = min(c, n)` (a Python `int`, so possibly
negative) and `range(n_conn)` spawns exactly `max(0, n_conn)` worker
threads against the single shared queue; for every requested `c ≥ 0`
the spawned count equals `min(c, n)` exactly. -/
theorem c3_spawn_count (conn : Int) (urls : List String) (result : String → Outcome)
    (sched : List Nat) (hne : urls ≠ []) (hc : 0 ≤ conn) :
    ((spawnedOf (dmRun conn urls result sched) : Int) = min conn (urls.length : Int))
    ∧ dmRun conn urls result sched
        = RunResult.ran (invalidOf (dmRun conn urls result sched))
            (spawnedOf (dmRun conn urls result sched))
            (exec result
              (initPool urls (spawnedOf (dmRun conn urls result sched))) sched)
    ∧ (initPool urls (spawnedOf (dmRun conn urls result sched))).workers
        = List.replicate (spawnedOf (dmRun conn urls result sched)) WStatus.running := by
  have hie : urls.isEmpty = false := by
    cases urls with
    | nil => exact absurd rfl hne
    | cons a l => rfl
  have hmin : 0 ≤ min conn (urls.length : Int) :=
    le_min hc (Int.natCast_nonneg _)
  refine ⟨?_, ?_, rfl⟩
  · simp only [dmRun, hie, Bool.false_eq_true, if_false, spawnedOf]
    exact Int.toNat_of_nonneg hmin
  · simp only [dmRun, hie, Bool.false_eq_true, if_false, spawnedOf, invalidOf]

/-- Claim C3 witness: the amended statement at conn = 10 over the two
demo URLs (clamped to 2 workers). -/
theorem c3_spawn_count_witness :
    ((spawnedOf (dmRun 10 demoUrls allOk []) : Int) = min 10 ((demoUrls.length : Nat) : Int))
    ∧ dmRun 10 demoUrls allOk []
        = RunResult.ran (invalidOf (dmRun 10 demoUrls allOk []))
            (spawnedOf (dmRun 10 demoUrls allOk []))
            (exec allOk (initPool demoUrls (spawnedOf (dmRun 10 demoUrls allOk []))) [])
    ∧ (initPool demoUrls (spawnedOf (dmRun 10 demoUrls allOk []))).workers
        = List.replicate (spawnedOf (dmRun 10 demoUrls allOk [])) WStatus.running :=
  c3_spawn_count 10 demoUrls allOk [] (by decide) (by decide)

/-- A single URL for the C3 counterexample. -/
def c3Urls : List String := ["http://c"]

/-- Claim C3 counterexample: the claim quantifies over every requested
concurrency; at conn = -1 with one URL the claimed effective
concurrency is min(-1, 1) = -1, but `range(-1)` is empty and 0 workers
are spawned, so "spawns exactly that many worker threads" fails. -/
theorem c3_counterexample :
    ¬ ((spawnedOf (dmRun (-1) c3Urls allOk []) : Int)
        = min (-1) ((c3Urls.length : Nat) : Int)) := by
  decide

/-! ## Claim C4 -/

/-- Claim C4 (code bug): with conn = 0 and one URL the clamped
concurrency 0 is outside [1, 10000] and the invalid-concurrency message
is written — but the run is not aborted: `DownloadManager.run` catches
the AssertionError and only writes to stderr (its sibling empty-queue
check does call `sys.exit()`), the spawn loop still executes and the
process completes with exit status 0. With conn = 10001 over 10001 URLs
the clamped value 10001 is again invalid, yet 10001 workers are
spawned anyway. -/
theorem c4_invalid_concurrency_not_fatal :
    invalidOf (dmRun 0 ["http://a"] allOk []) = true
    ∧ exitCode (dmRun 0 ["http://a"] allOk []) = 0
    ∧ spawnedOf (dmRun 0 ["http://a"] allOk []) = 0
    ∧ invalidOf (dmRun 10001 (List.replicate 10001 "http://a") allOk []) = true
    ∧ spawnedOf (dmRun 10001 (List.replicate 10001 "http://a") allOk []) = 10001 := by
  have hie : (List.replicate 10001 "http://a").isEmpty = false := rfl
  have hlen : ((List.replicate 10001 "http://a").length : Int) = 10001 := by
    rw [List.length_replicate]
    norm_num
  refine ⟨by decide, by decide, by decide, ?_, ?_⟩
  · simp only [dmRun, hie, Bool.false_eq_true, if_false, invalidOf, hlen]
    decide
  · simp only [dmRun, hie, Bool.false_eq_true, if_false, spawnedOf, hlen]
    decide

/-! ## Claim C5 -/

/-- The Python slice `[4:-3]` of a payload wrapped in the comment
markers returns exactly the payload. -/
theorem pySlice_wrap (p : String) : pySlice4m3 ("<!--" ++ p ++ "-->") = p := by
  unfold pySlice4m3
  have h1 : ("<!--" ++ p ++ "-->").toList = "<!--".toList ++ (p.toList ++ "-->".toList) := by
    simp [String.toList, String.data_append]
  rw [h1]
  have h4 : ("<!--".toList).length = 4 := by decide
  have h3 : ("-->".toList).length = 3 := by decide
  have hlen : ("<!--".toList ++ (p.toList ++ "-->".toList)).length - 7 = p.toList.length := by
    rw [List.length_append, List.length_append, h4, h3]
    omega
  rw [hlen, ← h4, List.drop_left, List.take_left]
  rfl

/-- Claim C5: extraction enumerates the application/json script texts
in document order, selects the third (`react_items[2]`), removes
exactly 4 leading and 3 trailing characters (the slice `[4:-3]`) and
JSON-decodes the remainder; when the third element's text is the
payload wrapped in the comment markers, the stripped text is exactly
the unwrapped payload, so the decoded value is the decoder's value on
the payload itself. -/
theorem c5_extraction {J : Type} (decode : String → Option J) (scripts : List String)
    (p : String) (h : scripts[2]? = some ("<!--" ++ p ++ "-->")) :
    pySlice4m3 ("<!--" ++ p ++ "-->") = p
    ∧ getFullSiteJson decode scripts
        = (match decode p with
           | some j => ExtractResult.ok j
           | none => ExtractResult.decodeError) := by
  refine ⟨pySlice_wrap p, ?_⟩
  simp only [getFullSiteJson, h, pySlice_wrap p]

/-- An identity decoder standing for `json.loads` in the C5 witness. -/
def demoDecode : String → Option String := fun s => some s

/-- Page with three JSON script texts; the third wraps `null`. -/
def demoScripts : List String := ["s0", "s1", "<!--null-->"]

/-- Claim C5 witness: the statement at a concrete page whose third JSON
script text is the wrapped payload `null`. -/
theorem c5_extraction_witness :
    pySlice4m3 ("<!--" ++ "null" ++ "-->") = "null"
    ∧ getFullSiteJson demoDecode demoScripts
        = (match demoDecode "null" with
           | some j => ExtractResult.ok j
           | none => ExtractResult.decodeError) :=
  c5_extraction demoDecode demoScripts "null" (by decide)

/-! ## Claim C6 -/

/-- The amenity loop is exactly "filter by presence flag, keep names,
preserve order". -/
theorem deriveAmenities_eq (l : List Amenity) :
    deriveAmenities l = (l.filter (fun a => a.is_present)).map (fun a => a.name) := by
  unfold deriveAmenities
  suffices h : ∀ acc, l.foldl (fun acc a => if a.is_present then acc ++ [a.name] else acc) acc
      = acc ++ (l.filter (fun a => a.is_present)).map (fun a => a.name) by
    simpa using h []
  induction l with
  | nil => intro acc; simp
  | cons a l ih =>
    intro acc
    cases hp : a.is_present <;> simp [List.foldl_cons, List.filter_cons, hp, ih]

/-- Claim C6: the derived amenity list contains exactly the names of
the amenities whose presence flag is true, in payload order, and the
persisted amenities column is that list joined with commas; in
particular Wifi-present/Pool-absent derives exactly ["Wifi"]. -/
theorem c6_amenities (url : String) (l : Listing) (row : Row)
    (h : storeDb url l = Except.ok row) :
    deriveAmenities l.listing_amenities
        = (l.listing_amenities.filter (fun a => a.is_present)).map (fun a => a.name)
    ∧ row.amenities = String.intercalate "," (deriveAmenities l.listing_amenities)
    ∧ deriveAmenities [⟨"Wifi", true⟩, ⟨"Pool", false⟩] = ["Wifi"] := by
  refine ⟨deriveAmenities_eq _, ?_, by decide⟩
  cases hp : l.photos with
  | nil =>
    unfold storeDb at h
    rw [hp] at h
    cases h
  | cons p r =>
    unfold storeDb at h
    rw [hp] at h
    simp only [Except.ok.injEq] at h
    rw [← h]

/-- A concrete decoded listing for the witnesses. -/
def demoListing : Listing :=
  { name := "Cozy Loft"
    market := "Denver"
    review_score := 93
    review_count := 25
    room_and_property_type := "Entire loft"
    bed_label := "2 beds"
    bathroom_label := "1 bath"
    guest_label := "4 guests"
    price_formatted_for_embed := "$120"
    photos := [⟨"http://img/cover.jpg?size=big"⟩]
    description := "Nice place"
    listing_amenities := [⟨"Wifi", true⟩, ⟨"Pool", false⟩] }

/-- The row `storeDb` produces for `demoListing`. -/
def demoRow : Row :=
  { url := "http://a"
    name := "Cozy Loft"
    market := "Denver"
    rating := "93"
    review_count := "25"
    type := "Entire loft"
    bed := "2 beds"
    bath := "1 bath"
    guest := "4 guests"
    price := "$120"
    photo_url := "http://img/cover.jpg"
    description := "Nice place"
    amenities := "Wifi" }

/-- Claim C6 witness: the statement at a concrete stored listing. -/
theorem c6_amenities_witness :
    deriveAmenities demoListing.listing_amenities
        = (demoListing.listing_amenities.filter (fun a => a.is_present)).map (fun a => a.name)
    ∧ demoRow.amenities = String.intercalate "," (deriveAmenities demoListing.listing_amenities)
    ∧ deriveAmenities [⟨"Wifi", true⟩, ⟨"Pool", false⟩] = ["Wifi"] :=
  c6_amenities "http://a" demoListing demoRow (by rfl)

/-! ## Claim C10 -/

/-- Claim C10: the insert reads only the first element of the photos
list, persisting the prefix of its cover-photo URL before the first
question mark; with an empty photos list `photos[0]` raises IndexError
and that URL's insert fails even when every other field is present;
with a non-empty photos list the stored row is independent of the tail
of the photos list. -/
theorem c10_photos_first_only (url : String) (l : Listing) (p : Photo) (rest : List Photo)
    (h : l.photos = p :: rest) :
    (∀ l2 : Listing, l2.photos = [] → storeDb url l2 = Except.error StoreErr.indexError)
    ∧ (∃ row, storeDb url l = Except.ok row
        ∧ row.photo_url = pySplitHead p.large_cover)
    ∧ (∀ rest2 : List Photo,
        storeDb url { l with photos := p :: rest2 }
          = storeDb url { l with photos := p :: rest }) := by
  refine ⟨?_, ?_, ?_⟩
  · intro l2 h2
    unfold storeDb
    rw [h2]
  · unfold storeDb
    rw [h]
    exact ⟨_, rfl, rfl⟩
  · intro rest2
    rfl

/-- Claim C10 witness: the statement at the concrete listing (its one
photo URL carries a query string that gets stripped). -/
theorem c10_photos_first_only_witness :
    (∀ l2 : Listing, l2.photos = [] → storeDb "http://a" l2 = Except.error StoreErr.indexError)
    ∧ (∃ row, storeDb "http://a" demoListing = Except.ok row
        ∧ row.photo_url = pySplitHead (Photo.mk "http://img/cover.jpg?size=big").large_cover)
    ∧ (∀ rest2 : List Photo,
        storeDb "http://a" { demoListing with photos := Photo.mk "http://img/cover.jpg?size=big" :: rest2 }
          = storeDb "http://a" { demoListing with photos := [Photo.mk "http://img/cover.jpg?size=big"] }) :=
  c10_photos_first_only "http://a" demoListing (Photo.mk "http://img/cover.jpg?size=big") []
    (by rfl)

/-! ## Claim C7 -/

/-- A step by a worker that has already exited changes nothing. -/
theorem step_nonrunning_id (result : String → Outcome) (s : PoolState) (i : Nat)
    (h : s.workers[i]? ≠ some WStatus.running) : step result s i = s := by
  unfold step
  split
  · rename_i hw
    exact absurd hw h
  · rfl

/-- Scheduling an exited worker any number of times changes nothing. -/
theorem exec_nonrunning_id (result : String → Outcome) (i : Nat) :
    ∀ (n : Nat) (s : PoolState), s.workers[i]? ≠ some WStatus.running →
      exec result s (List.replicate n i) = s := by
  intro n
  induction n with
  | zero => intro s h; rfl
  | succ m ih =>
    intro s h
    rw [List.replicate_succ,
      show exec result s (i :: List.replicate m i)
          = exec result (step result s i) (List.replicate m i) from rfl,
      step_nonrunning_id result s i h]
    exact ih s h

/-- Claim C7 (amended): a per-URL content error (`ExtractionFailed` /
`FieldMissing`, i.e. an uncaught ValueError or AttributeError) while
worker `i` processes the head URL skips that URL's record (no row is
written) and does not abort the pool (every other worker's status is
unchanged and no Throttled is signalled) — but it terminates worker
`i`'s thread: the worker is dead and never dequeues again, so with no
other worker the remaining queue goes unprocessed. -/
theorem c7_content_error_kills_worker (result : String → Outcome) (s : PoolState)
    (i : Nat) (u : String) (rest : List String)
    (hw : s.workers[i]? = some WStatus.running)
    (hq : s.queue = u :: rest)
    (hr : result u = Outcome.contentError) :
    (step result s i).rows = s.rows
    ∧ (step result s i).workers[i]? = some WStatus.dead
    ∧ (∀ j, j ≠ i → (step result s i).workers[j]? = s.workers[j]?)
    ∧ (step result s i).throttledFlag = s.throttledFlag
    ∧ (∀ n, exec result (step result s i) (List.replicate n i) = step result s i) := by
  have hlt : i < s.workers.length := by
    rcases List.getElem?_eq_some.mp hw with ⟨hl, _⟩
    exact hl
  have hstep : step result s i =
      { s with queue := rest, processed := s.processed ++ [u],
               workers := s.workers.set i WStatus.dead } := by
    simp [step, hw, hq, hr]
  have hdead : (step result s i).workers[i]? = some WStatus.dead := by
    rw [hstep]
    exact List.getElem?_set_eq_of_lt WStatus.dead hlt
  refine ⟨?_, hdead, ?_, ?_, ?_⟩
  · rw [hstep]
  · intro j hj
    exact step_other_worker result s i j hj
  · rw [hstep]
  · intro n
    apply exec_nonrunning_id
    rw [hdead]
    intro hc
    cases hc

/-- Outcomes where the first URL hits a per-URL content error. -/
def c7Bad : String → Outcome :=
  fun u => if u = "http://x" then Outcome.contentError else Outcome.ok

/-- The single-worker state for the C7 witness. -/
def c7State : PoolState :=
  ⟨["http://x", "http://y"], [WStatus.running], [], [], false⟩

/-- Claim C7 witness: the amended statement at a concrete single-worker
state whose head URL hits a content error. -/
theorem c7_content_error_kills_worker_witness :
    (step c7Bad c7State 0).rows = c7State.rows
    ∧ (step c7Bad c7State 0).workers[0]? = some WStatus.dead
    ∧ (∀ j, j ≠ 0 → (step c7Bad c7State 0).workers[j]? = c7State.workers[j]?)
    ∧ (step c7Bad c7State 0).throttledFlag = c7State.throttledFlag
    ∧ (∀ n, exec c7Bad (step c7Bad c7State 0) (List.replicate n 0) = step c7Bad c7State 0) :=
  c7_content_error_kills_worker c7Bad c7State 0 "http://x" ["http://y"]
    (by decide) (by decide) (by decide)

/-- Claim C7 counterexample: with one worker and URLs x, y where x hits
a content error, after three scheduling slots the worker has dequeued
only x, written no row, and the pool has returned with y still queued —
the worker does not continue dequeuing, refuting "only that URL's
record is skipped, the worker continues dequeuing". -/
theorem c7_counterexample :
    (exec c7Bad (initPool ["http://x", "http://y"] 1) [0, 0, 0]).processed = ["http://x"]
    ∧ (exec c7Bad (initPool ["http://x", "http://y"] 1) [0, 0, 0]).queue = ["http://y"]
    ∧ (exec c7Bad (initPool ["http://x", "http://y"] 1) [0, 0, 0]).rows = []
    ∧ Returned (exec c7Bad (initPool ["http://x", "http://y"] 1) [0, 0, 0]) := by
  decide

/-! ## Claim C8 -/

/-- Claim C8 (amended): with an empty URL set Run fails on the
empty-queue assert before spawning any worker: the stderr message is
written and `sys.exit()` terminates the process — but `sys.exit()` is
called with no argument, so the exit status is 0, not non-zero. -/
theorem c8_nowork (conn : Int) (result : String → Outcome) (sched : List Nat) :
    dmRun conn [] result sched = RunResult.startupExit 0
    ∧ spawnedOf (dmRun conn [] result sched) = 0
    ∧ rowsOf (dmRun conn [] result sched) = []
    ∧ exitCode (dmRun conn [] result sched) = 0 :=
  ⟨rfl, rfl, rfl, rfl⟩

/-- Claim C8 counterexample: at the concrete empty input the process
exit status is 0, refuting "exits with a non-zero status". -/
theorem c8_counterexample : ¬ exitCode (dmRun 10 [] allOk []) ≠ 0 := by
  decide

/-! ## Claim C9 -/

/-- Claim C9: when the input argument is not an openable file
(`click.open_file` raises FileNotFoundError) and the URL syntax
validator rejects it, input processing enqueues nothing, so the run
takes the empty-input failure path: it exits at the empty-queue assert
before spawning any worker, and no row is written. -/
theorem c9_invalid_input_noqueue (urls : String) (validUrl : String → Bool)
    (conn : Int) (result : String → Outcome) (sched : List Nat)
    (h : validUrl urls = false) :
    processInput none urls validUrl = []
    ∧ dmRun conn (processInput none urls validUrl) result sched = RunResult.startupExit 0
    ∧ spawnedOf (dmRun conn (processInput none urls validUrl) result sched) = 0
    ∧ rowsOf (dmRun conn (processInput none urls validUrl) result sched) = [] := by
  have h1 : processInput none urls validUrl = [] := by
    simp [processInput, h]
  refine ⟨h1, ?_, ?_, ?_⟩ <;> rw [h1] <;> rfl

/-- A validator that rejects everything it is shown here. -/
def rejectAll : String → Bool := fun _ => false

/-- Claim C9 witness: the statement at a concrete unopenable,
invalid-URL input. -/
theorem c9_invalid_input_noqueue_witness :
    processInput none "not a url" rejectAll = []
    ∧ dmRun 10 (processInput none "not a url" rejectAll) allOk [] = RunResult.startupExit 0
    ∧ spawnedOf (dmRun 10 (processInput none "not a url" rejectAll) allOk []) = 0
    ∧ rowsOf (dmRun 10 (processInput none "not a url" rejectAll) allOk []) = [] :=
  c9_invalid_input_noqueue "not a url" rejectAll 10 allOk [] (by decide)
